import Mathlib

/-!
Verification of the feature-derivation and validation pass of the
smart-stock-inventory repository (`src/preprocessing/preprocess.py`).

The pass works over a pandas DataFrame.  We embed it shallowly:

* a DataFrame row becomes a `SalesRecord`; the table is a `List SalesRecord`
  (pandas column assignment is row-aligned, so per-row functions suffice);
* pandas float64 cells are modelled by `PFloat`: an exact rational for every
  ordinary value, plus the three IEEE non-finite values `posInf`, `negInf`
  and `nan` that pandas division can produce.  Division follows the pandas
  semantics: `x / 0` is `nan` when `x = 0`, `+inf` when `x > 0`, `-inf`
  when `x < 0`; comparisons with `nan` are false, `+inf > c` is true;
* `numpy.round(_, 2)` is modelled exactly by half-to-even rounding of the
  value scaled by 100 (`round2Q`); rounding fixes the non-finite values;
* `np.nan` results (unrecognised month label, the `Month_Num` cell, the
  `Month` cell after the categorical conversion of line 93) are modelled
  by `Option` with `none` for NaN;
* `add_calculated_columns` and `validate_data` mutate / read the caller's
  DataFrame in place and also return it, so both are embedded as functions
  that return the table the caller sees after the call alongside their
  other outputs.
-/

/-- A pandas float64 value: an exact rational or one of the IEEE
non-finite values. -/
inductive PFloat where
  | num (q : ℚ)
  | posInf
  | negInf
  | nan
deriving DecidableEq

/-- Pandas / IEEE division of two finite values: `a / 0` is `nan` for
`a = 0`, `+inf` for `a > 0`, `-inf` for `a < 0`; otherwise exact. -/
def pdiv (a b : ℚ) : PFloat :=
  if b = 0 then
    if a = 0 then PFloat.nan
    else if 0 < a then PFloat.posInf
    else PFloat.negInf
  else PFloat.num (a / b)

/-- Multiplication by the positive constant 100, as in
`df[...] / df[...] * 100`; the non-finite values are fixed. -/
def PFloat.mul100 : PFloat → PFloat
  | PFloat.num q => PFloat.num (q * 100)
  | x => x

/-- Round a rational half-to-even to the nearest integer, the tie rule of
IEEE 754 / `numpy.round`. -/
def roundHalfEven (q : ℚ) : ℤ :=
  let f : ℤ := ⌊q⌋
  if q - f < 1 / 2 then f
  else if 1 / 2 < q - f then f + 1
  else if 2 ∣ f then f else f + 1

/-- `numpy.round(q, 2)`: scale by 100, round half-to-even, scale back. -/
def round2Q (q : ℚ) : ℚ := (roundHalfEven (q * 100) : ℚ) / 100

/-- `Series.round(2)` on a float cell; `inf` and `nan` round to themselves. -/
def PFloat.round2 : PFloat → PFloat
  | PFloat.num q => PFloat.num (round2Q q)
  | x => x

/-- The pandas comparison `x > c` for a float cell against a finite
constant: false on `nan`, true on `+inf`, false on `-inf`. -/
def PFloat.gt (x : PFloat) (c : ℚ) : Bool :=
  match x with
  | PFloat.num q => decide (c < q)
  | PFloat.posInf => true
  | PFloat.negInf => false
  | PFloat.nan => false

/-- One raw row of `sales_data.csv`: the six input columns. -/
structure SalesRecord where
  productId : String
  productName : String
  month : String
  unitsSold : ℤ
  price : ℚ
  openingStock : ℤ
deriving DecidableEq

/-- One row after `add_calculated_columns`: the raw columns (the `Month`
cell as the categorical conversion of line 93 leaves it: `none` is NaN)
plus the five derived columns. -/
structure EnrichedRecord where
  productId : String
  productName : String
  month : Option String
  unitsSold : ℤ
  price : ℚ
  openingStock : ℤ
  totalSalesValue : ℚ
  monthNum : Option ℕ
  remainingStock : ℤ
  stockTurnoverRate : PFloat
  revenuePerUnit : PFloat
deriving DecidableEq

/-- The fixed ordered month list of `add_calculated_columns` (line 76). -/
def month_order : List String :=
  ["Jan", "Feb", "Mar", "Apr", "May", "Jun",
   "Jul", "Aug", "Sep", "Oct", "Nov", "Dec"]

/-- Line 77: `month_order.index(x) + 1 if x in month_order else np.nan`;
`none` is the NaN. -/
def monthNum (x : String) : Option ℕ :=
  if x ∈ month_order then some (month_order.indexOf x + 1) else none

/-- Line 93: `pd.Categorical(df.Month, categories=[m for m in month_order
if m in df.Month.unique()])` seen at one cell `x`: the cell keeps its
value when it is among the retained categories and becomes NaN (`none`)
otherwise.  `allMonths` is the list of `Month` cells of the table. -/
def monthCategorical (allMonths : List String) (x : String) : Option String :=
  if x ∈ month_order.filter (fun m => decide (m ∈ allMonths)) then some x
  else none

/-- Lines 71-93 of `add_calculated_columns` restricted to one row: all five
derived cells plus the categorical rewrite of the `Month` cell. -/
def enrichRow (allMonths : List String) (r : SalesRecord) : EnrichedRecord :=
  { productId := r.productId
    productName := r.productName
    month := monthCategorical allMonths r.month
    unitsSold := r.unitsSold
    price := r.price
    openingStock := r.openingStock
    totalSalesValue := (r.unitsSold : ℚ) * r.price
    monthNum := monthNum r.month
    remainingStock := r.openingStock - r.unitsSold
    stockTurnoverRate := ((pdiv (r.unitsSold : ℚ) (r.openingStock : ℚ)).mul100).round2
    revenuePerUnit := pdiv ((r.unitsSold : ℚ) * r.price) (r.unitsSold : ℚ) }

/-- `add_calculated_columns` (lines 65-98): every column assignment is
row-aligned, so the table the caller sees afterwards (the function mutates
`df` in place and returns it) is the row-wise enrichment. -/
def add_calculated_columns (df : List SalesRecord) : List EnrichedRecord :=
  df.map (enrichRow (df.map SalesRecord.month))

/-- `validate_data` (lines 101-139).  Output: the `issues` list the
function returns, the `len(high_turnover)` count of the >100%-turnover
warning (line 128; zero when the warning is not printed), and the table as
the caller sees it after the call (the body never assigns to `df`). -/
def validate_data (df : List EnrichedRecord) :
    (List String × ℕ) × List EnrichedRecord :=
  let issues0 : List String := []
  let issues1 :=
    if df.any (fun r => decide (r.unitsSold < 0)) then
      issues0 ++ ["Negative units sold detected"]
    else issues0
  let issues2 :=
    if df.any (fun r => decide (r.price < 0)) then
      issues1 ++ ["Negative prices detected"]
    else issues1
  let issues3 :=
    if df.any (fun r => decide (r.openingStock < 0)) then
      issues2 ++ ["Negative opening stock detected"]
    else issues2
  let high := df.filter (fun r => r.stockTurnoverRate.gt 100)
  ((issues3, high.length), df)

/-- `add_calculated_columns` preserves the number of rows. -/
theorem length_add_calculated_columns (rs : List SalesRecord) :
    (add_calculated_columns rs).length = rs.length := by
  simp [add_calculated_columns]

/-- The spec's §8 example row `(P001, Jan, Units_Sold=50, Price=20,
Opening_Stock=200)`. -/
def rec1 : SalesRecord :=
  { productId := "P001", productName := "Sample", month := "Jan",
    unitsSold := 50, price := 20, openingStock := 200 }

/-- The spec's §8 edge-case row with `Opening_Stock=0, Units_Sold=10`. -/
def rec_os0 : SalesRecord :=
  { productId := "P002", productName := "Widget", month := "Feb",
    unitsSold := 10, price := 5, openingStock := 0 }

/-- A row whose month label is outside the fixed 12-label list. -/
def recFoo : SalesRecord :=
  { productId := "P003", productName := "Thing", month := "Foo",
    unitsSold := 1, price := 1, openingStock := 10 }

/-- The §8 example batch: one ordinary row plus one with `Units_Sold=-5`. -/
def recNeg : SalesRecord :=
  { productId := "P004", productName := "Gadget", month := "Mar",
    unitsSold := -5, price := 3, openingStock := 50 }

/-- Two-row batch for the negative-units example. -/
def batch8 : List SalesRecord := [rec1, recNeg]

/-- Per-row view of `add_calculated_columns`: the row at index `i` of the
returned table is the enrichment of the input row at index `i`. -/
theorem get_add_calculated_columns (rs : List SalesRecord) (i : ℕ)
    (h : i < rs.length) :
    (add_calculated_columns rs).get
        ⟨i, lt_of_lt_of_eq h (length_add_calculated_columns rs).symm⟩ =
      enrichRow (rs.map SalesRecord.month) (rs.get ⟨i, h⟩) := by
  simp [add_calculated_columns]

/-- `monthCategorical` at a cell value that occurs in the table keeps the
value exactly when it is one of the twelve month labels. -/
theorem monthCategorical_eq (allMonths : List String) (x : String)
    (hx : x ∈ allMonths) :
    monthCategorical allMonths x =
      if x ∈ month_order then some x else none := by
  unfold monthCategorical
  by_cases h : x ∈ month_order
  · simp [List.mem_filter, h, hx]
  · simp [List.mem_filter, h]

/-- C3: the month-index derivation maps the fixed 12-label list
`[Jan..Dec]` to `[1..12]` respectively (hence injectively, onto `{1..12}`),
and every label outside the list gets the explicit missing marker (NaN,
here `none`), never a default. -/
theorem month_num_bijection :
    month_order.map monthNum =
      [some 1, some 2, some 3, some 4, some 5, some 6,
       some 7, some 8, some 9, some 10, some 11, some 12] ∧
    (month_order.map monthNum).Nodup ∧
    (∀ x : String, x ∉ month_order → monthNum x = none) := by
  refine ⟨by decide, by decide, fun x hx => ?_⟩
  simp [monthNum, hx]

/-- C3 witness: the out-of-list label Foo gets the missing marker. -/
theorem month_num_bijection_witness : monthNum ("Foo") = none :=
  month_num_bijection.2.2 ("Foo") (by decide)

/-- C5: the derived total sales value is exactly units sold × price, with
no rounding applied. -/
theorem total_sales_value_exact (ms : List String) (r : SalesRecord) :
    (enrichRow ms r).totalSalesValue = (r.unitsSold : ℚ) * r.price := rfl

/-- C6: remaining stock is exactly opening stock − units sold, negative
(not clamped) whenever units sold exceeds opening stock. -/
theorem remaining_stock_formula (ms : List String) (r : SalesRecord) :
    (enrichRow ms r).remainingStock = r.openingStock - r.unitsSold ∧
    (r.openingStock < r.unitsSold → (enrichRow ms r).remainingStock < 0) := by
  refine ⟨rfl, fun h => ?_⟩
  show r.openingStock - r.unitsSold < 0
  omega

/-- C6 witness: the spec's edge row (opening stock 0, units sold 10) has
remaining stock −10. -/
theorem remaining_stock_formula_witness :
    (enrichRow [] rec_os0).remainingStock =
      rec_os0.openingStock - rec_os0.unitsSold ∧
    (enrichRow [] rec_os0).remainingStock < 0 :=
  ⟨(remaining_stock_formula [] rec_os0).1,
   (remaining_stock_formula [] rec_os0).2 (by decide)⟩

/-- C10: `validate_data` is read-only — the table the caller sees after
the call is exactly the table passed in (the body never assigns to any
column or row). -/
theorem validate_data_readonly (df : List EnrichedRecord) :
    (validate_data df).2 = df ∧ (validate_data df).2.length = df.length :=
  ⟨rfl, rfl⟩

/-- C1 counterexample: at the spec's own edge row (`Opening_Stock=0,
`Units_Sold=10`) the derived turnover cell is `+inf` — pandas division of
a positive numerator by zero — and not the NaN marker that the code uses
for not-computable cells (the claim asserts every zero-stock row gets the
explicit not-computable marker). -/
theorem turnover_zero_stock_counterexample :
    rec_os0.openingStock = 0 ∧
    (add_calculated_columns [rec_os0]).map EnrichedRecord.stockTurnoverRate =
      [PFloat.posInf] ∧
    PFloat.posInf ≠ PFloat.nan := by decide

/-- C1 (amended): for opening stock > 0 the turnover is
`round(units sold / opening stock × 100, 2)`; for opening stock = 0 the
derivation still never crashes, but the cell is NaN only when units sold
is also 0, and `+inf` / `-inf` when units sold is positive / negative. -/
theorem turnover_rate_spec (ms : List String) (r : SalesRecord) :
    (0 < r.openingStock →
      (enrichRow ms r).stockTurnoverRate =
        PFloat.num (round2Q ((r.unitsSold : ℚ) / (r.openingStock : ℚ) * 100))) ∧
    (r.openingStock = 0 →
      (enrichRow ms r).stockTurnoverRate =
        if r.unitsSold = 0 then PFloat.nan
        else if 0 < r.unitsSold then PFloat.posInf
        else PFloat.negInf) := by
  constructor
  · intro h
    have hos : ((r.openingStock : ℚ)) ≠ 0 := by exact_mod_cast h.ne'
    simp [enrichRow, pdiv, hos, PFloat.mul100, PFloat.round2]
  · intro h
    have hos : ((r.openingStock : ℚ)) = 0 := by exact_mod_cast h
    by_cases hz : r.unitsSold = 0
    · have hzq : ((r.unitsSold : ℚ)) = 0 := by exact_mod_cast hz
      simp [enrichRow, pdiv, hos, hzq, hz, PFloat.mul100, PFloat.round2]
    · by_cases hp : 0 < r.unitsSold
      · have hzq : ((r.unitsSold : ℚ)) ≠ 0 := by exact_mod_cast hz
        have hpq : (0 : ℚ) < (r.unitsSold : ℚ) := by exact_mod_cast hp
        simp [enrichRow, pdiv, hos, hzq, hpq, hz, hp, PFloat.mul100, PFloat.round2]
      · have hzq : ((r.unitsSold : ℚ)) ≠ 0 := by exact_mod_cast hz
        have hpq : ¬ (0 : ℚ) < (r.unitsSold : ℚ) := by exact_mod_cast hp
        simp [enrichRow, pdiv, hos, hzq, hpq, hz, hp, PFloat.mul100, PFloat.round2]

/-- C1 witness: the spec's §8 example row (50 sold of 200 stocked) has a
positive opening stock and gets the rounded percentage, 25.00. -/
theorem turnover_rate_spec_witness :
    0 < rec1.openingStock ∧
    (enrichRow [] rec1).stockTurnoverRate =
      PFloat.num (round2Q ((rec1.unitsSold : ℚ) / (rec1.openingStock : ℚ) * 100)) ∧
    PFloat.num (round2Q ((rec1.unitsSold : ℚ) / (rec1.openingStock : ℚ) * 100)) =
      PFloat.num 25 := by
  refine ⟨by decide, (turnover_rate_spec [] rec1).1 (by decide), ?_⟩
  norm_num [rec1, round2Q, roundHalfEven]

/-- C2 counterexample: a one-row batch whose only row has opening stock 0
and units sold 10.  Its turnover cell is not a numeric value (it is
`+inf`), so the claim says the >100%-turnover finding counts 0 records —
but `validate_data` counts it (`inf > 100` is true in pandas) and reports
count 1. -/
theorem turnover_count_counterexample :
    rec_os0.openingStock = 0 ∧
    (validate_data (add_calculated_columns [rec_os0])).1.2 = 1 ∧
    ((add_calculated_columns [rec_os0]).filter
      (fun e => match e.stockTurnoverRate with
        | PFloat.num q => decide (100 < q)
        | _ => false)).length = 0 := by decide

/-- C2 (amended): the >100%-turnover finding reports the count of records
whose turnover cell is a numeric value > 100 or `+inf`; records whose cell
is NaN or `-inf` are never counted.  A zero-stock row with positive units
sold has cell `+inf` and therefore is counted. -/
theorem turnover_count_spec (rs : List SalesRecord) :
    (validate_data (add_calculated_columns rs)).1.2 =
      ((add_calculated_columns rs).filter
        (fun e => match e.stockTurnoverRate with
          | PFloat.num q => decide (100 < q)
          | PFloat.posInf => true
          | PFloat.negInf => false
          | PFloat.nan => false)).length := rfl

/-- C7: revenue per unit is total sales value ÷ units sold for units sold
> 0, and the NaN marker (`0 × price = 0` divided by `0`) for units sold
= 0 — never a crash, never a silent zero. -/
theorem revenue_per_unit_spec (ms : List String) (r : SalesRecord) :
    (0 < r.unitsSold →
      (enrichRow ms r).revenuePerUnit =
        PFloat.num ((enrichRow ms r).totalSalesValue / (r.unitsSold : ℚ))) ∧
    (r.unitsSold = 0 → (enrichRow ms r).revenuePerUnit = PFloat.nan) := by
  constructor
  · intro h
    have hz : ((r.unitsSold : ℚ)) ≠ 0 := by exact_mod_cast h.ne'
    simp [enrichRow, pdiv, hz]
  · intro h
    simp [enrichRow, pdiv, h]

/-- C7 witness: the spec's §8 example row has revenue per unit
1000 / 50 = 20. -/
theorem revenue_per_unit_spec_witness :
    0 < rec1.unitsSold ∧
    (enrichRow [] rec1).revenuePerUnit =
      PFloat.num ((enrichRow [] rec1).totalSalesValue / (rec1.unitsSold : ℚ)) ∧
    PFloat.num ((enrichRow [] rec1).totalSalesValue / (rec1.unitsSold : ℚ)) =
      PFloat.num 20 := by
  refine ⟨by decide, (revenue_per_unit_spec [] rec1).1 (by decide), ?_⟩
  norm_num [enrichRow, rec1]

/-- C4: the derivation pass returns exactly one enriched record per input
record, in the same order: the output length equals the input length and
the output row at every index `i` is the enrichment of the input row at
index `i`. -/
theorem enrichment_complete_ordered (rs : List SalesRecord) :
    (add_calculated_columns rs).length = rs.length ∧
    ∀ (i : ℕ) (h : i < rs.length),
      (add_calculated_columns rs).get
          ⟨i, lt_of_lt_of_eq h (length_add_calculated_columns rs).symm⟩ =
        enrichRow (rs.map SalesRecord.month) (rs.get ⟨i, h⟩) :=
  ⟨length_add_calculated_columns rs, get_add_calculated_columns rs⟩

/-- C4 witness: on the one-row batch `[rec1]` the output has one row and
row 0 is the enrichment of `rec1`. -/
theorem enrichment_complete_ordered_witness :
    (add_calculated_columns [rec1]).length = ([rec1] : List SalesRecord).length ∧
    (add_calculated_columns [rec1]).get
        ⟨0, lt_of_lt_of_eq (by decide)
          (length_add_calculated_columns [rec1]).symm⟩ =
      enrichRow (([rec1] : List SalesRecord).map SalesRecord.month)
        (([rec1] : List SalesRecord).get ⟨0, by decide⟩) :=
  ⟨(enrichment_complete_ordered [rec1]).1,
   (enrichment_complete_ordered [rec1]).2 0 (by decide)⟩

/-- C9 counterexample: a row whose month label (`Foo`) is outside the fixed
12-label list.  `add_calculated_columns` mutates the caller's table in
place (it assigns to `df` and returns it), and the categorical conversion
of line 93 replaces that row's raw `Month` cell by NaN (`none`): a raw
field of an input record is changed from the caller's perspective. -/
theorem month_mutation_counterexample :
    recFoo.month = "Foo" ∧
    (add_calculated_columns [recFoo]).map EnrichedRecord.month = [none] ∧
    (none : Option String) ≠ some (recFoo.month) := by decide

/-- C9 (amended): after the pass, for every row the caller's table keeps
the raw product id, product name, units sold, price and opening stock
unchanged; the raw `Month` cell is also kept exactly when its label is in
the fixed 12-label list, and is replaced by NaN (`none`) otherwise. -/
theorem raw_fields_preserved (rs : List SalesRecord) (i : ℕ)
    (h : i < rs.length) :
    (((add_calculated_columns rs).get
        ⟨i, lt_of_lt_of_eq h (length_add_calculated_columns rs).symm⟩).productId,
     ((add_calculated_columns rs).get
        ⟨i, lt_of_lt_of_eq h (length_add_calculated_columns rs).symm⟩).productName,
     ((add_calculated_columns rs).get
        ⟨i, lt_of_lt_of_eq h (length_add_calculated_columns rs).symm⟩).unitsSold,
     ((add_calculated_columns rs).get
        ⟨i, lt_of_lt_of_eq h (length_add_calculated_columns rs).symm⟩).price,
     ((add_calculated_columns rs).get
        ⟨i, lt_of_lt_of_eq h (length_add_calculated_columns rs).symm⟩).openingStock) =
      ((rs.get ⟨i, h⟩).productId, (rs.get ⟨i, h⟩).productName,
       (rs.get ⟨i, h⟩).unitsSold, (rs.get ⟨i, h⟩).price,
       (rs.get ⟨i, h⟩).openingStock) ∧
    ((rs.get ⟨i, h⟩).month ∈ month_order →
      ((add_calculated_columns rs).get
        ⟨i, lt_of_lt_of_eq h (length_add_calculated_columns rs).symm⟩).month =
        some ((rs.get ⟨i, h⟩).month)) ∧
    ((rs.get ⟨i, h⟩).month ∉ month_order →
      ((add_calculated_columns rs).get
        ⟨i, lt_of_lt_of_eq h (length_add_calculated_columns rs).symm⟩).month =
        none) := by
  rw [get_add_calculated_columns rs i h]
  have hx : (rs.get ⟨i, h⟩).month ∈ rs.map SalesRecord.month :=
    List.mem_map_of_mem SalesRecord.month (rs.get_mem i h)
  refine ⟨rfl, fun hm => ?_, fun hm => ?_⟩
  · show monthCategorical (rs.map SalesRecord.month) (rs.get ⟨i, h⟩).month =
      some ((rs.get ⟨i, h⟩).month)
    rw [monthCategorical_eq _ _ hx, if_pos hm]
  · show monthCategorical (rs.map SalesRecord.month) (rs.get ⟨i, h⟩).month = none
    rw [monthCategorical_eq _ _ hx, if_neg hm]

/-- C9 witness: a row whose month label is in the fixed list (`Jan`) keeps
its raw `Month` cell. -/
theorem raw_fields_preserved_witness :
    (([rec1] : List SalesRecord).get ⟨0, by decide⟩).month ∈ month_order ∧
    ((add_calculated_columns [rec1]).get
        ⟨0, lt_of_lt_of_eq (by decide)
          (length_add_calculated_columns [rec1]).symm⟩).month =
      some ((([rec1] : List SalesRecord).get ⟨0, by decide⟩).month) :=
  ⟨by decide, (raw_fields_preserved [rec1] 0 (by decide)).2.1 (by decide)⟩

/-- C8: on a batch with exactly one record with units sold = −5 and every
other record non-negative, `validate_data` reports the negative-units
finding, exactly one enriched record has negative units sold, and the pass
still enriches every record — including the offending one — by the same
per-row formulas (the uniform row map). -/
theorem negative_units_advisory (rs : List SalesRecord)
    (h1 : rs.countP (fun r => decide (r.unitsSold = -5)) = 1)
    (h2 : ∀ r ∈ rs, r.unitsSold = -5 ∨ 0 ≤ r.unitsSold) :
    "Negative units sold detected" ∈
      (validate_data (add_calculated_columns rs)).1.1 ∧
    (add_calculated_columns rs).countP
      (fun e => decide (e.unitsSold < 0)) = 1 ∧
    add_calculated_columns rs = rs.map (enrichRow (rs.map SalesRecord.month)) := by
  have hcount : rs.countP (fun r => decide (r.unitsSold < 0)) = 1 := by
    rw [← h1]
    refine List.countP_congr (fun r hr => ?_)
    rcases h2 r hr with hr5 | hr0 <;> simp <;> omega
  have hmem : ∃ r ∈ rs, r.unitsSold < 0 := by
    have : 0 < rs.countP (fun r => decide (r.unitsSold < 0)) := by omega
    simpa using List.countP_pos_iff.mp this
  have hany :
      (add_calculated_columns rs).any (fun r => decide (r.unitsSold < 0)) = true := by
    rw [List.any_eq_true]
    obtain ⟨r, hr, hneg⟩ := hmem
    exact ⟨enrichRow (rs.map SalesRecord.month) r,
      List.mem_map_of_mem _ hr, by simpa [enrichRow] using hneg⟩
  refine ⟨?_, ?_, rfl⟩
  · simp only [validate_data, hany, if_true]
    split <;> split <;> simp
  · show (rs.map (enrichRow (rs.map SalesRecord.month))).countP
      (fun e => decide (e.unitsSold < 0)) = 1
    rw [List.countP_map]
    exact hcount

/-- C8 witness: the two-row batch `[rec1, recNeg]` (units sold 50 and −5)
produces the negative-units finding, exactly one negative enriched row,
and the uniform per-row enrichment. -/
theorem negative_units_advisory_witness :
    "Negative units sold detected" ∈
      (validate_data (add_calculated_columns batch8)).1.1 ∧
    (add_calculated_columns batch8).countP
      (fun e => decide (e.unitsSold < 0)) = 1 ∧
    add_calculated_columns batch8 =
      batch8.map (enrichRow (batch8.map SalesRecord.month)) :=
  negative_units_advisory batch8 (by decide) (by decide)
